import Mathlib

/-!
Verification development for `src/process/resample_workflow.py`.

The file shallowly embeds the transform-composition and volumetric
resampling engine of the repository:

* machine floats are modelled as rationals (`ℚ`); 4x4 affine matrices and
  N x 4 homogeneous coordinate sets are Mathlib matrices over `ℚ`;
* the external capabilities (`interpolate`, `compute_warp`, the nibabel /
  nitransforms loaders) are passed in as function parameters, exactly as the
  code treats them as imported black boxes;
* fallible Python code (assertions, missing attributes, bad indexing,
  `raise ValueError`) is modelled with `Except PyErr`;
* numpy arrays of interpolation results are modelled by the inductive
  `NDArray` (nested lists of rational scalars).

Each definition carries a comment pointing at the lines of
`resample_workflow.py` it embeds.
-/

set_option autoImplicit false

namespace ResampleWorkflow

/-- The Python exceptions that the embedded code can raise. -/
inductive PyErr where
  | assertionError
  | attributeError
  | indexError
  | keyError
  | valueError
  | typeError
  deriving DecidableEq, Repr

/-- A numpy array of rational scalars: either a 0-d scalar or a list of
subarrays.  `np.stack(xs, axis=0)` on equally shaped arrays is `NDArray.arr xs`. -/
inductive NDArray where
  | scalar (x : ℚ)
  | arr (xs : List NDArray)
  deriving Repr

/-- The numpy shape of an array.  For well-formed (non-ragged) arrays, which is
the only kind numpy produces, this matches `a.shape`; it reads the extent of
each inner axis off the first element, as numpy's constructors guarantee. -/
def NDArray.shape : NDArray → List ℕ
  | .scalar _ => []
  | .arr [] => [0]
  | .arr (x :: xs) => (xs.length + 1) :: x.shape

/-- `np.stack(xs, axis=0)`: fails (ValueError) on an empty list or on arrays of
differing shapes, otherwise adds a new leading axis of length `xs.length`. -/
def npStack (xs : List NDArray) : Except PyErr NDArray :=
  match xs with
  | [] => .error .valueError
  | x :: rest =>
    if rest.all (fun y => y.shape == x.shape) then .ok (.arr (x :: rest))
    else .error .valueError

/-- One per-frame interpolation result as it flows into aggregation: a plain
numpy array, a region-keyed `dict` of arrays (Python dicts are ordered and
have unique keys; they are modelled as association lists), or any other
Python object (`other`). -/
inductive InterpResult where
  | arr (a : NDArray)
  | dict (d : List (String × NDArray))
  | other

/-- A successfully aggregated result: a stacked array or a dict of stacked
arrays (the return type of `_combine_interpolation_results`). -/
inductive Combined where
  | arr (a : NDArray)
  | dict (d : List (String × NDArray))

/-- `interp[key]` for an element of the aggregated list: a dict lookup that
raises KeyError when the key is absent, and a TypeError-style failure when the
element is not a dict at all. -/
def dictGetE (r : InterpResult) (k : String) : Except PyErr NDArray :=
  match r with
  | .dict d =>
    match d.find? (fun p => p.1 == k) with
    | some p => .ok p.2
    | none => .error .keyError
  | _ => .error .typeError

/-- Total variant of the dict lookup, used to state theorems (under the
hypotheses of those theorems it agrees with the fallible lookup). -/
def dictGetD (d : List (String × NDArray)) (k : String) : NDArray :=
  match d.find? (fun p => p.1 == k) with
  | some p => p.2
  | none => .scalar 0

/-- Effectful `List.map` over `Except`, written as plain structural recursion
so that the loops of the Python code are easy to reason about. -/
def mapME {α β : Type} (f : α → Except PyErr β) : List α → Except PyErr (List β)
  | [] => .ok []
  | x :: xs => do
    let y ← f x
    let ys ← mapME f xs
    .ok (y :: ys)

/-- `interps[0]` must be an array for `np.stack(interps, axis=0)` to produce a
stacked numeric array; list entries that are not arrays make the stack fail. -/
def asArrE (r : InterpResult) : Except PyErr NDArray :=
  match r with
  | .arr a => .ok a
  | _ => .error .valueError

/-- Lines 128-141, `_combine_interpolation_results(interps)`:

* `interps[0]` on an empty list raises IndexError;
* if `interps[0]` is an ndarray: `np.stack(interps, axis=0)`;
* if `interps[0]` is a dict: `keys = list(interps[0])`, then the nested loops
  perform every `interp[key]` lookup (appending to per-key lists) before any
  per-key `np.stack` happens, and the output dict is keyed by the first
  frame's keys;
* otherwise `raise ValueError`. -/
def combine_interpolation_results (interps : List InterpResult) :
    Except PyErr Combined :=
  match interps with
  | [] => .error .indexError
  | first :: _ =>
    match first with
    | .arr _ => do
      let xs ← mapME asArrE interps
      let stacked ← npStack xs
      .ok (.arr stacked)
    | .dict d0 =>
      let keys := d0.map Prod.fst
      do
        let cols ← mapME (fun k => mapME (fun r => dictGetE r k) interps) keys
        let stacked ← mapME npStack cols
        .ok (.dict (keys.zip stacked))
    | .other => .error .valueError

open Matrix

/-- A 4x4 affine transform on homogeneous row coordinates (applied by
right-multiplication with its transpose, the `coords @ M.T` convention). -/
abbrev Mat4 := Matrix (Fin 4) (Fin 4) ℚ

/-- An N x 4 homogeneous coordinate set (last column 1 by convention). -/
abbrev Coords (n : ℕ) := Matrix (Fin n) (Fin 4) ℚ

/-- An N x 3 per-point displacement, as returned by `compute_warp`. -/
abbrev Disp (n : ℕ) := Matrix (Fin n) (Fin 3) ℚ

/-- `np.linalg.inv` for 4x4 matrices, written with the explicit adjugate
formula so that it stays computable; `inv4_eq_inv` identifies it with
Mathlib's matrix inverse. -/
def inv4 (A : Mat4) : Mat4 := A.det⁻¹ • A.adjugate

/-- `cc[..., :3] += diff`: the sampled displacement is added to the first
three columns; the fourth (homogeneous) column is written back unchanged. -/
def addDisplacement {n : ℕ} (cc : Coords n) (diff : Disp n) : Coords n :=
  Matrix.of fun i j =>
    if h : (j : ℕ) < 3 then cc i j + diff i ⟨(j : ℕ), h⟩ else cc i j

/-- Line 147: `coords = coords @ ref_to_t1.T`.  The transform loaded from
`out_fwd.tfm` is applied directly (no inversion appears in the code). -/
def mapToReferenceSpace {n : ℕ} (coords : Coords n) (ref_to_t1 : Mat4) :
    Coords n :=
  coords * ref_to_t1ᵀ

/-- The reference-space mapping as the specification words it: the inverse of
`ref_to_t1` applied to each row, `c @ invert(ref_to_t1).T`.  Stated from the
spec sentence for comparison with `mapToReferenceSpace` (the code). -/
def mapToReferenceSpaceClaimed {n : ℕ} (coords : Coords n) (ref_to_t1 : Mat4) :
    Coords n :=
  coords * (inv4 ref_to_t1)ᵀ

/-- Lines 150-154, the per-frame coordinate computation inside the
one-step loop:

    cc = coords.copy()
    if warp_data is not None:
        diff = compute_warp(cc, warp_data[i].astype(np.float64), warp_affines[i])
        cc[..., :3] += diff
    cc = cc @ (hmc[i].T @ np.linalg.inv(affine).T)

`wi` is `(warp_data[i], warp_affines[i])` when warp fields are passed, `none`
when `warp_data is None`. -/
def frameVoxelCoords {n : ℕ} {Warp : Type}
    (computeWarp : Coords n → Warp → Mat4 → Disp n)
    (coords : Coords n) (wi : Option (Warp × Mat4)) (hmc_i affine : Mat4) :
    Coords n :=
  let cc := coords
  let cc :=
    match wi with
    | none => cc
    | some (w, wa) => addDisplacement cc (computeWarp cc w wa)
  cc * (hmc_iᵀ * (inv4 affine)ᵀ)

/-- The per-frame voxel mapping as the claim words it: the inverse of the
motion-correction transform `hmc[i]` composed with the inverse of the frame's
voxel affine (row convention: `inv(hmc[i])` applied first, then
`inv(affine)`).  Stated from the spec sentence for comparison with
`frameVoxelCoords` (the code). -/
def frameVoxelMapClaimed {n : ℕ} (cc : Coords n) (hmc_i affine : Mat4) :
    Coords n :=
  cc * ((inv4 hmc_i)ᵀ * (inv4 affine)ᵀ)

/-- `interp = callback(interp)` when a callback was supplied; the raw ndarray
otherwise. -/
def applyCallback (callback : Option (NDArray → InterpResult)) (x : NDArray) :
    InterpResult :=
  match callback with
  | none => .arr x
  | some f => f x

/-- Lines 148-159, the loop `for i, (data, affine) in enumerate(zip(nii_data,
nii_affines))` of `interpolate_original_space`, written as a recursion that
consumes one frame of each per-volume sequence per step (`zip` stops at the
shorter of `nii_data`/`nii_affines`; `hmc[i]`, `warp_data[i]` and
`warp_affines[i]` raise IndexError when exhausted).  `warp` bundles the
`warp_data`/`warp_affines` parameters, which every call site passes together
(both lists, or both `None`). `interp` is the external `interpolate`
capability (with `fill`/`interp_kwargs` folded into it). -/
def onestepLoop {n : ℕ} {VolData Warp : Type}
    (interp : VolData → Coords n → NDArray)
    (computeWarp : Coords n → Warp → Mat4 → Disp n)
    (callback : Option (NDArray → InterpResult)) :
    List VolData → List Mat4 → List Mat4 →
    Option (List Warp × List Mat4) → Coords n →
    Except PyErr (List InterpResult)
  | [], _, _, _, _ => .ok []
  | _ :: _, [], _, _, _ => .ok []
  | d :: ds, a :: as, hmcs, warp, coords => do
    let (h, hrest) ←
      match hmcs with
      | [] => (.error .indexError : Except PyErr (Mat4 × List Mat4))
      | h :: t => .ok (h, t)
    let (wi, wrest) ←
      match warp with
      | none =>
        (.ok (none, none) :
          Except PyErr (Option (Warp × Mat4) × Option (List Warp × List Mat4)))
      | some (wd, wa) =>
        match wd, wa with
        | wdi :: wdt, wai :: wat => .ok (some (wdi, wai), some (wdt, wat))
        | _, _ => .error .indexError
    let cc := frameVoxelCoords computeWarp coords wi h a
    let r := applyCallback callback (interp d cc)
    let rest ← onestepLoop interp computeWarp callback ds as hrest wrest coords
    .ok (r :: rest)

/-- Lines 144-162, `interpolate_original_space`: map the anatomical-space
coordinates by `ref_to_t1.T`, run the per-frame loop, and aggregate. -/
def interpolate_original_space {n : ℕ} {VolData Warp : Type}
    (interp : VolData → Coords n → NDArray)
    (computeWarp : Coords n → Warp → Mat4 → Disp n)
    (nii_data : List VolData) (nii_affines : List Mat4)
    (coords : Coords n) (ref_to_t1 : Mat4) (hmc : List Mat4)
    (warp : Option (List Warp × List Mat4))
    (callback : Option (NDArray → InterpResult)) :
    Except PyErr Combined := do
  let mapped := mapToReferenceSpace coords ref_to_t1
  let interps ← onestepLoop interp computeWarp callback
    nii_data nii_affines hmc warp mapped
  combine_interpolation_results interps

/-- Lines 165-177, `interpolate_t1_space`: one mapping
`cc = coords @ np.linalg.inv(nii_t1_affine.T)` shared by every timepoint,
then each pre-resampled volume is interpolated at `cc` (optionally passed
through the callback) and the results are aggregated. -/
def interpolate_t1_space {n : ℕ} {VolData : Type}
    (interp : VolData → Coords n → NDArray)
    (nii_t1 : List VolData) (nii_t1_affine : Mat4) (coords : Coords n)
    (callback : Option (NDArray → InterpResult)) :
    Except PyErr Combined := do
  let cc := coords * inv4 (nii_t1_affineᵀ)
  let interps :=
    nii_t1.map (fun data => applyCallback callback (interp data cc))
  combine_interpolation_results interps

/-- The attributes a `FunctionalRun` object carries after `__init__`
(lines 81-111).  `warp` is `some (warp_data, warp_affines)` exactly when the
`if len(warp_fns):` branch ran and set those two attributes; when no warp
files were discovered the attributes are never created, which is recorded as
`none` (a later `self.warp_data` read then raises AttributeError). -/
structure FunctionalRunState (VolData Warp : Type) where
  ref_to_t1 : Mat4
  hmc : List Mat4
  nii_data : List VolData
  nii_affines : List Mat4
  warp : Option (List Warp × List Mat4)
  nii_t1 : List VolData
  nii_t1_affine : Mat4

/-- Lines 81-111, `FunctionalRun.__init__(wf_dir)`, with the on-disk
collaborators passed as fallible loader contracts:

* `loadHmc`/`loadRef` stand for the two nitransforms loads (lines 84-87);
* `nii_fns` / `warp_fns` are the two sorted glob results (lines 89-90);
* `if len(warp_fns): assert len(nii_fns) == len(warp_fns)` (lines 91-92) runs
  before any volume is loaded;
* `loadVol fn` stands for `nib.load(fn)` giving `(data, affine)`
  (lines 95-99), `loadWarp fn` for `parse_warp_image(fn)` (lines 101-106)
  and `loadT1` for the merged T1-space volume load (lines 108-111). -/
def functionalRunInit {VolData Warp : Type}
    (loadHmc : Except PyErr (List Mat4)) (loadRef : Except PyErr Mat4)
    (nii_fns warp_fns : List String)
    (loadVol : String → Except PyErr (VolData × Mat4))
    (loadWarp : String → Except PyErr (Warp × Mat4))
    (loadT1 : Except PyErr (List VolData × Mat4)) :
    Except PyErr (FunctionalRunState VolData Warp) := do
  let hmc ← loadHmc
  let ref_to_t1 ← loadRef
  if warp_fns.length ≠ 0 then
    if nii_fns.length = warp_fns.length then pure () else .error .assertionError
  let vols ← mapME loadVol nii_fns
  let warp ←
    if warp_fns.length ≠ 0 then do
      let ws ← mapME loadWarp warp_fns
      pure (some (ws.map Prod.fst, ws.map Prod.snd))
    else
      pure (none : Option (List Warp × List Mat4))
  let t1 ← loadT1
  pure
    { ref_to_t1 := ref_to_t1
      hmc := hmc
      nii_data := vols.map Prod.fst
      nii_affines := vols.map Prod.snd
      warp := warp
      nii_t1 := t1.1
      nii_t1_affine := t1.2 }

/-- Lines 113-125, `FunctionalRun.interpolate(coords, onestep, ...)`:
with `onestep=True` it reads `self.warp_data` / `self.warp_affines` — an
AttributeError when `__init__` discovered no warp files — and calls
`interpolate_original_space`; otherwise `interpolate_t1_space`. -/
def FunctionalRunState.interpolate {n : ℕ} {VolData Warp : Type}
    (st : FunctionalRunState VolData Warp)
    (interp : VolData → Coords n → NDArray)
    (computeWarp : Coords n → Warp → Mat4 → Disp n)
    (coords : Coords n) (onestep : Bool)
    (callback : Option (NDArray → InterpResult)) : Except PyErr Combined :=
  if onestep then
    match st.warp with
    | none => .error .attributeError
    | some w =>
      interpolate_original_space interp computeWarp st.nii_data st.nii_affines
        coords st.ref_to_t1 st.hmc (some w) callback
  else
    interpolate_t1_space interp st.nii_t1 st.nii_t1_affine coords callback

/-- Lines 55-63, `Subject.prepare_mni`: copy the module-level template
coordinate set, check the displacement field's affine against the reference
grid affine (`np.testing.assert_array_equal`, an AssertionError if any entry
differs), sample the warp, add it to the first three columns, and apply the
registration affine.  `parsed` is the `parse_combined_hdf5` result
`(affine, warp, warp_affine)`; `computeWarp` is the external `compute_warp`
capability. -/
def prepare_mni {n : ℕ} {Warp : Type}
    (computeWarp : Coords n → Warp → Mat4 → Disp n)
    (mniCoords : Coords n) (mniAffine : Mat4)
    (parsed : Mat4 × Warp × Mat4) : Except PyErr (Coords n) :=
  let xyz1 := mniCoords
  let (affine, warp, warp_affine) := parsed
  if warp_affine ≠ mniAffine then .error .assertionError
  else
    let diff := computeWarp xyz1 warp warp_affine
    let xyz1 := addDisplacement xyz1 diff
    .ok (xyz1 * affineᵀ)

/-- Line 216 path construction for one region of a template-space block:
`f'{out_dir}/{space}/{roi}/{tag}/sub-{sid}_{label}.npy'`. -/
def roiOutFn (outDir space tag sid label roi : String) : String :=
  outDir ++ "/" ++ space ++ "/" ++ roi ++ "/" ++ tag ++ "/sub-" ++ sid ++
    "_" ++ label ++ ".npy"

/-- Lines 212-229, one template-space resolution block of
`workflow_single_run`: build the per-region output paths, skip everything
when all of them already exist (`if all([os.path.exists(_) for _ in
out_fns]): continue`), otherwise evaluate the interpolation call once
(`runInterp` stands for `func_run.interpolate(...)`; the returned `ℕ` counts
how many times it is evaluated) and write one file per key of the result
(`for roi, resampled in output.items(): np.save(out_fn, resampled)`,
overwriting any file already present).  `.items()` on a plain ndarray result
raises AttributeError. -/
def mniBlock (exists0 : String → Bool)
    (outDir space tag sid label : String) (rois : List String)
    (runInterp : Except PyErr Combined) :
    ℕ × Except PyErr (List (String × NDArray)) :=
  let out_fns := rois.map (roiOutFn outDir space tag sid label)
  if out_fns.all exists0 then (0, .ok [])
  else
    (1, do
      let output ← runInterp
      match output with
      | .arr _ => .error .attributeError
      | .dict items =>
        .ok (items.map fun p => (roiOutFn outDir space tag sid label p.1, p.2)))

/-!
Object-identity model.  To state the frame-effect claim (callers' coordinate
arrays are never mutated) the two coordinate-warping code paths are embedded a
second time over an explicit array store: numpy arrays live in numbered
cells, `.copy()` and operations like `@` allocate fresh cells, and the
in-place `cc[..., :3] += diff` writes to the cell the local name refers to.
-/

/-- A store of coordinate arrays: cell values plus the next fresh address. -/
structure Store (n : ℕ) where
  mem : ℕ → Coords n
  next : ℕ

/-- Read the array held in cell `r`. -/
def Store.read {n : ℕ} (s : Store n) (r : ℕ) : Coords n := s.mem r

/-- Allocate a fresh cell holding `v` (what `.copy()` and every
array-producing numpy expression do). -/
def Store.alloc {n : ℕ} (s : Store n) (v : Coords n) : ℕ × Store n :=
  (s.next, ⟨fun r => if r = s.next then v else s.mem r, s.next + 1⟩)

/-- Overwrite cell `r` in place (what `cc[..., :3] += diff` does to the array
object `cc` refers to). -/
def Store.write {n : ℕ} (s : Store n) (r : ℕ) (v : Coords n) : Store n :=
  ⟨fun r2 => if r2 = r then v else s.mem r2, s.next⟩

/-- Lines 55-63, `Subject.prepare_mni`, over the array store:
`xyz1 = mni_coords.copy()` allocates a fresh cell from the module-level
array's cell `mniCoordsRef`; the affine assertion runs next; the in-place
`xyz1[..., :3] += diff` writes only the fresh cell; `xyz1 = xyz1 @ affine.T`
allocates another fresh cell which becomes `self.mni_coords`.  Returns the
final store and the cell of the result (or the assertion failure). -/
def prepareMniHeap {n : ℕ} {Warp : Type}
    (computeWarp : Coords n → Warp → Mat4 → Disp n)
    (mniAffine : Mat4) (parsed : Mat4 × Warp × Mat4)
    (s : Store n) (mniCoordsRef : ℕ) : Store n × Except PyErr ℕ :=
  let (xyz1, s) := s.alloc (s.read mniCoordsRef)
  let (affine, warp, warp_affine) := parsed
  if warp_affine ≠ mniAffine then (s, .error .assertionError)
  else
    let diff := computeWarp (s.read xyz1) warp warp_affine
    let s := s.write xyz1 (addDisplacement (s.read xyz1) diff)
    let (res, s) := s.alloc (s.read xyz1 * affineᵀ)
    (s, .ok res)

/-- Lines 148-159 over the array store: per frame, `cc = coords.copy()`
allocates a fresh cell, the warp displacement is added in place to that
fresh cell only, and `cc = cc @ (...)` allocates another fresh cell. -/
def onestepLoopHeap {n : ℕ} {VolData Warp : Type}
    (interp : VolData → Coords n → NDArray)
    (computeWarp : Coords n → Warp → Mat4 → Disp n)
    (callback : Option (NDArray → InterpResult)) :
    List VolData → List Mat4 → List Mat4 →
    Option (List Warp × List Mat4) → ℕ → Store n →
    Store n × Except PyErr (List InterpResult)
  | [], _, _, _, _, s => (s, .ok [])
  | _ :: _, [], _, _, _, s => (s, .ok [])
  | d :: ds, a :: as, hmcs, warp, coordsRef, s =>
    match hmcs with
    | [] => (s, .error .indexError)
    | h :: hrest =>
      let decomp :
          Except PyErr (Option (Warp × Mat4) × Option (List Warp × List Mat4)) :=
        match warp with
        | none => .ok (none, none)
        | some (wd, wa) =>
          match wd, wa with
          | wdi :: wdt, wai :: wat => .ok (some (wdi, wai), some (wdt, wat))
          | _, _ => .error .indexError
      match decomp with
      | .error e => (s, .error e)
      | .ok (wi, wrest) =>
        let (cc, s) := s.alloc (s.read coordsRef)
        let s :=
          match wi with
          | none => s
          | some (w, wa) =>
            s.write cc (addDisplacement (s.read cc) (computeWarp (s.read cc) w wa))
        let (cc2, s) := s.alloc (s.read cc * (hᵀ * (inv4 a)ᵀ))
        let r := applyCallback callback (interp d (s.read cc2))
        match onestepLoopHeap interp computeWarp callback ds as hrest wrest coordsRef s with
        | (s, .error e) => (s, .error e)
        | (s, .ok rest) => (s, .ok (r :: rest))

/-- Lines 144-162, `interpolate_original_space`, over the array store: the
caller's coordinate set is passed by reference (`coordsRef`);
`coords = coords @ ref_to_t1.T` allocates a fresh cell and rebinds the local
name, leaving the caller's cell untouched. -/
def interpolateOriginalSpaceHeap {n : ℕ} {VolData Warp : Type}
    (interp : VolData → Coords n → NDArray)
    (computeWarp : Coords n → Warp → Mat4 → Disp n)
    (nii_data : List VolData) (nii_affines : List Mat4)
    (coordsRef : ℕ) (ref_to_t1 : Mat4) (hmc : List Mat4)
    (warp : Option (List Warp × List Mat4))
    (callback : Option (NDArray → InterpResult)) (s : Store n) :
    Store n × Except PyErr Combined :=
  let (mapped, s) := s.alloc (s.read coordsRef * ref_to_t1ᵀ)
  match onestepLoopHeap interp computeWarp callback
      nii_data nii_affines hmc warp mapped s with
  | (s, .error e) => (s, .error e)
  | (s, .ok interps) => (s, combine_interpolation_results interps)

/-!
Concrete fixtures used when instantiating the theorems below on explicit
inputs (counterexamples and witnesses).
-/

/-- The diagonal transform scaling the first axis by two. -/
def dgTwo : Mat4 := Matrix.diagonal ![(2 : ℚ), 1, 1, 1]

/-- A single homogeneous coordinate row `[1, 0, 0, 1]`. -/
def rowOne : Coords 1 := Matrix.of ![![(1 : ℚ), 0, 0, 1]]

/-- The row `[2, 0, 0, 1]` (the image of `rowOne` under `dgTwo`). -/
def rowTwo : Coords 1 := Matrix.of ![![(2 : ℚ), 0, 0, 1]]

/-- The row `[1/2, 0, 0, 1]` (the image of `rowOne` under `dgTwo⁻¹`). -/
def rowHalf : Coords 1 := Matrix.of ![![(1 / 2 : ℚ), 0, 0, 1]]

/-- A trivial stand-in for the external `compute_warp` capability. -/
def cwZero : Coords 1 → Unit → Mat4 → Disp 1 := fun _ _ _ => 0

/-- A trivial stand-in for the external `interpolate` capability. -/
def probeI : Unit → Coords 1 → NDArray := fun _ _ => .scalar 0

/-- A trivial stand-in for the volume/warp file loaders. -/
def lvU : String → Except PyErr (Unit × Mat4) := fun _ => .ok ((), 1)

/-- A one-cell array store whose cell `0` holds `rowOne`. -/
def storeOne : Store 1 := ⟨fun _ => rowOne, 1⟩

/-! ### Helper lemmas -/

@[simp]
theorem ok_bind {α β : Type} (a : α) (g : α → Except PyErr β) :
    (Except.ok a : Except PyErr α) >>= g = g a := rfl

@[simp]
theorem error_bind {α β : Type} (e : PyErr) (g : α → Except PyErr β) :
    (Except.error e : Except PyErr α) >>= g = Except.error e := rfl

theorem inv4_eq_inv (A : Mat4) : inv4 A = A⁻¹ := by
  rw [Matrix.inv_def, Ring.inverse_eq_inv']
  rfl

theorem inv4_one : inv4 (1 : Mat4) = 1 := by
  rw [inv4_eq_inv]
  exact Matrix.inv_eq_right_inv (by simp)

theorem inv4_transpose (A : Mat4) : inv4 (Aᵀ) = (inv4 A)ᵀ := by
  rw [inv4_eq_inv, inv4_eq_inv]
  exact (Matrix.transpose_nonsing_inv A).symm

theorem mapME_ok_map {α β : Type} (f : α → Except PyErr β) (g : α → β)
    (l : List α) (h : ∀ x ∈ l, f x = .ok (g x)) :
    mapME f l = .ok (l.map g) := by
  induction l with
  | nil => rfl
  | cons a t ih =>
    have ha := h a (List.mem_cons_self a t)
    have ht := ih fun x hx => h x (List.mem_cons_of_mem a hx)
    simp [mapME, ha, ht]

theorem mapME_length {α β : Type} {f : α → Except PyErr β} {l : List α}
    {ys : List β} (h : mapME f l = .ok ys) : ys.length = l.length := by
  induction l generalizing ys with
  | nil =>
    simp only [mapME] at h
    cases h
    rfl
  | cons a t ih =>
    simp only [mapME] at h
    cases hfa : f a with
    | error e => rw [hfa] at h; simp at h
    | ok y =>
      rw [hfa] at h
      cases hms : mapME f t with
      | error e => rw [hms] at h; simp at h
      | ok zs =>
        rw [hms] at h
        simp at h
        cases h
        simp [ih hms]

theorem mapME_okOrKey {α β : Type} (f : α → Except PyErr β) (l : List α)
    (h : ∀ x ∈ l, (∃ y, f x = .ok y) ∨ f x = .error .keyError) :
    (∃ ys, mapME f l = .ok ys) ∨ mapME f l = .error .keyError := by
  induction l with
  | nil => exact Or.inl ⟨[], rfl⟩
  | cons a t ih =>
    rcases h a (List.mem_cons_self a t) with ⟨y, hy⟩ | hy
    · rcases ih (fun x hx => h x (List.mem_cons_of_mem a hx)) with ⟨ys, hys⟩ | hys
      · exact Or.inl ⟨y :: ys, by simp [mapME, hy, hys]⟩
      · exact Or.inr (by simp [mapME, hy, hys])
    · exact Or.inr (by simp [mapME, hy])

theorem mapME_keyError_of_mem {α β : Type} (f : α → Except PyErr β)
    (l : List α) (x : α)
    (hall : ∀ y ∈ l, (∃ z, f y = .ok z) ∨ f y = .error .keyError)
    (hx : x ∈ l) (he : f x = .error .keyError) :
    mapME f l = .error .keyError := by
  induction l with
  | nil => cases hx
  | cons a t ih =>
    rcases List.mem_cons.mp hx with rfl | hxt
    · simp [mapME, he]
    · rcases hall a (List.mem_cons_self a t) with ⟨y, hy⟩ | hy
      · have := ih (fun y hy2 => hall y (List.mem_cons_of_mem a hy2)) hxt
        simp [mapME, hy, this]
      · simp [mapME, hy]

theorem npStack_ok (x : NDArray) (xs : List NDArray)
    (h : ∀ y ∈ xs, y.shape = x.shape) :
    npStack (x :: xs) = .ok (.arr (x :: xs)) := by
  simp only [npStack, List.all_eq_true]
  rw [if_pos]
  intro y hy
  rw [h y hy]
  exact beq_self_eq_true _

theorem find?_of_mem_keys {d : List (String × NDArray)} {k : String}
    (h : k ∈ d.map Prod.fst) :
    ∃ p, d.find? (fun q => q.1 == k) = some p ∧ p.1 = k ∧ p ∈ d := by
  induction d with
  | nil => cases h
  | cons a t ih =>
    by_cases hk : a.1 = k
    · exact ⟨a, by simp [List.find?, hk], hk, List.mem_cons_self a t⟩
    · have hmem : k ∈ t.map Prod.fst := by
        rcases List.mem_map.mp h with ⟨p, hp, hpk⟩
        rcases List.mem_cons.mp hp with rfl | hpt
        · exact absurd hpk hk
        · exact List.mem_map.mpr ⟨p, hpt, hpk⟩
      rcases ih hmem with ⟨p, hfind, hpk, hpt⟩
      refine ⟨p, ?_, hpk, List.mem_cons_of_mem a hpt⟩
      have : (a.1 == k) = false := by simp [hk]
      simp [List.find?, this, hfind]

theorem dictGetE_of_mem {d : List (String × NDArray)} {k : String}
    (h : k ∈ d.map Prod.fst) :
    dictGetE (.dict d) k = .ok (dictGetD d k) := by
  rcases find?_of_mem_keys h with ⟨p, hfind, -, -⟩
  simp [dictGetE, dictGetD, hfind]

theorem dictGetE_okOrKey (d : List (String × NDArray)) (k : String) :
    (∃ y, dictGetE (.dict d) k = .ok y) ∨
      dictGetE (.dict d) k = .error .keyError := by
  cases hf : d.find? (fun q => q.1 == k) with
  | none => exact Or.inr (by simp [dictGetE, hf])
  | some p => exact Or.inl ⟨p.2, by simp [dictGetE, hf]⟩

theorem dictGetD_shape {d : List (String × NDArray)} {k : String}
    {sh : String → List ℕ} (hmem : k ∈ d.map Prod.fst)
    (hsh : ∀ p ∈ d, (p.2 : NDArray).shape = sh p.1) :
    (dictGetD d k).shape = sh k := by
  rcases find?_of_mem_keys hmem with ⟨p, hfind, hpk, hpd⟩
  rw [dictGetD, hfind]
  rw [hsh p hpd, hpk]

theorem rowOne_mul_dgTwoT : rowOne * dgTwoᵀ = rowTwo := by
  ext i j
  fin_cases i <;> fin_cases j <;>
    simp [rowOne, dgTwo, rowTwo, Matrix.mul_apply, Fin.sum_univ_four,
      Matrix.diagonal]

theorem inv4_dgTwo : inv4 dgTwo = Matrix.diagonal ![(1 / 2 : ℚ), 1, 1, 1] := by
  rw [inv4_eq_inv]
  apply Matrix.inv_eq_right_inv
  ext i j
  fin_cases i <;> fin_cases j <;>
    simp [dgTwo, Matrix.mul_apply, Fin.sum_univ_four, Matrix.diagonal,
      Matrix.one_apply]

theorem rowOne_mul_inv_dgTwoT : rowOne * (inv4 dgTwo)ᵀ = rowHalf := by
  rw [inv4_dgTwo]
  ext i j
  fin_cases i <;> fin_cases j <;>
    simp [rowOne, rowHalf, Matrix.mul_apply, Fin.sum_univ_four,
      Matrix.diagonal] <;> norm_num

theorem rowTwo_ne_rowHalf : rowTwo ≠ rowHalf := by
  intro h
  have h0 := congrFun (congrFun h 0) 0
  simp [rowTwo, rowHalf] at h0
  norm_num at h0

theorem addDisplacement_col3 {n : ℕ} (cc : Coords n) (diff : Disp n)
    (i : Fin n) : addDisplacement cc diff i 3 = cc i 3 := by
  have h3 : ¬ (((3 : Fin 4) : ℕ) < 3) := by decide
  simp [addDisplacement, h3]

theorem addDisplacement_colLt {n : ℕ} (cc : Coords n) (diff : Disp n)
    (i : Fin n) (j : Fin 4) (hj : (j : ℕ) < 3) :
    addDisplacement cc diff i j = cc i j + diff i ⟨(j : ℕ), hj⟩ := by
  simp [addDisplacement, hj]

theorem store_alloc_mem_lt {n : ℕ} (s : Store n) (v : Coords n) {r : ℕ}
    (h : r < s.next) : ((s.alloc v).2).mem r = s.mem r := by
  simp only [Store.alloc]
  rw [if_neg (by omega)]

theorem store_write_mem_ne {n : ℕ} (s : Store n) (t : ℕ) (v : Coords n)
    {r : ℕ} (h : r ≠ t) : (s.write t v).mem r = s.mem r := by
  simp only [Store.write]
  rw [if_neg h]

theorem onestepLoopHeap_preserves {n : ℕ} {VolData Warp : Type}
    (interp : VolData → Coords n → NDArray)
    (computeWarp : Coords n → Warp → Mat4 → Disp n)
    (callback : Option (NDArray → InterpResult))
    (nd : List VolData) (na hmcs : List Mat4)
    (warp : Option (List Warp × List Mat4)) (coordsRef : ℕ) (s : Store n) :
    s.next ≤
        ((onestepLoopHeap interp computeWarp callback nd na hmcs warp
            coordsRef s).1).next ∧
      ∀ r, r < s.next →
        ((onestepLoopHeap interp computeWarp callback nd na hmcs warp
            coordsRef s).1).mem r = s.mem r := by
  induction nd generalizing na hmcs warp s with
  | nil => exact ⟨le_refl _, fun r _ => rfl⟩
  | cons d ds ih =>
    cases na with
    | nil => exact ⟨le_refl _, fun r _ => rfl⟩
    | cons a as =>
      cases hmcs with
      | nil => exact ⟨le_refl _, fun r _ => rfl⟩
      | cons h hrest =>
        have step :
            ∀ (s3 : Store n) (wrest : Option (List Warp × List Mat4)),
              s3.next = s.next + 2 →
              (∀ r, r < s.next → s3.mem r = s.mem r) →
              ∀ (p : Store n × Except PyErr (List InterpResult)),
                onestepLoopHeap interp computeWarp callback ds as hrest
                    wrest coordsRef s3 = p →
                ∀ (q : Store n × Except PyErr (List InterpResult)),
                  q.1 = p.1 →
                  s.next ≤ q.1.next ∧
                    ∀ r, r < s.next → q.1.mem r = s.mem r := by
          intro s3 wrest h3next h3mem p hp q hq
          rcases ih as hrest wrest s3 with ⟨ihnext, ihmem⟩
          rw [hp] at ihnext ihmem
          rw [hq]
          refine ⟨by omega, fun r hr => ?_⟩
          rw [ihmem r (by omega)]
          exact h3mem r hr
        cases warp with
        | none =>
          simp only [onestepLoopHeap]
          rcases hrec :
            onestepLoopHeap interp computeWarp callback ds as hrest
              none coordsRef
              (((s.alloc (s.read coordsRef)).2).alloc
                (((s.alloc (s.read coordsRef)).2).read
                    ((s.alloc (s.read coordsRef)).1) *
                  (hᵀ * (inv4 a)ᵀ))).2 with ⟨s4, r4⟩
          have h3next :
              ((((s.alloc (s.read coordsRef)).2).alloc
                (((s.alloc (s.read coordsRef)).2).read
                    ((s.alloc (s.read coordsRef)).1) *
                  (hᵀ * (inv4 a)ᵀ))).2).next = s.next + 2 := rfl
          have h3mem :
              ∀ r, r < s.next →
                ((((s.alloc (s.read coordsRef)).2).alloc
                  (((s.alloc (s.read coordsRef)).2).read
                      ((s.alloc (s.read coordsRef)).1) *
                    (hᵀ * (inv4 a)ᵀ))).2).mem r = s.mem r := by
            intro r hr
            rw [store_alloc_mem_lt _ _ (show r < ((s.alloc (s.read coordsRef)).2).next by
              show r < s.next + 1
              omega)]
            exact store_alloc_mem_lt _ _ hr
          cases r4 with
          | error e =>
            exact step _ none h3next h3mem _ hrec (s4, .error e) rfl
          | ok rest =>
            exact step _ none h3next h3mem _ hrec (s4, _) rfl
        | some pw =>
          rcases pw with ⟨wd, wa⟩
          cases wd with
          | nil => exact ⟨le_refl _, fun r _ => rfl⟩
          | cons wdi wdt =>
            cases wa with
            | nil => exact ⟨le_refl _, fun r _ => rfl⟩
            | cons wai wat =>
              simp only [onestepLoopHeap]
              rcases hrec :
                onestepLoopHeap interp computeWarp callback ds as hrest
                  (some (wdt, wat)) coordsRef
                  ((((s.alloc (s.read coordsRef)).2).write
                      ((s.alloc (s.read coordsRef)).1)
                      (addDisplacement
                        (((s.alloc (s.read coordsRef)).2).read
                          ((s.alloc (s.read coordsRef)).1))
                        (computeWarp
                          (((s.alloc (s.read coordsRef)).2).read
                            ((s.alloc (s.read coordsRef)).1))
                          wdi wai))).alloc
                    ((((s.alloc (s.read coordsRef)).2).write
                        ((s.alloc (s.read coordsRef)).1)
                        (addDisplacement
                          (((s.alloc (s.read coordsRef)).2).read
                            ((s.alloc (s.read coordsRef)).1))
                          (computeWarp
                            (((s.alloc (s.read coordsRef)).2).read
                              ((s.alloc (s.read coordsRef)).1))
                            wdi wai))).read
                        ((s.alloc (s.read coordsRef)).1) *
                      (hᵀ * (inv4 a)ᵀ))).2 with ⟨s4, r4⟩
              have h3next :
                  (((((s.alloc (s.read coordsRef)).2).write
                      ((s.alloc (s.read coordsRef)).1)
                      (addDisplacement
                        (((s.alloc (s.read coordsRef)).2).read
                          ((s.alloc (s.read coordsRef)).1))
                        (computeWarp
                          (((s.alloc (s.read coordsRef)).2).read
                            ((s.alloc (s.read coordsRef)).1))
                          wdi wai))).alloc
                    ((((s.alloc (s.read coordsRef)).2).write
                        ((s.alloc (s.read coordsRef)).1)
                        (addDisplacement
                          (((s.alloc (s.read coordsRef)).2).read
                            ((s.alloc (s.read coordsRef)).1))
                          (computeWarp
                            (((s.alloc (s.read coordsRef)).2).read
                              ((s.alloc (s.read coordsRef)).1))
                            wdi wai))).read
                        ((s.alloc (s.read coordsRef)).1) *
                      (hᵀ * (inv4 a)ᵀ))).2).next = s.next + 2 := rfl
              have h3mem :
                  ∀ r, r < s.next →
                    (((((s.alloc (s.read coordsRef)).2).write
                        ((s.alloc (s.read coordsRef)).1)
                        (addDisplacement
                          (((s.alloc (s.read coordsRef)).2).read
                            ((s.alloc (s.read coordsRef)).1))
                          (computeWarp
                            (((s.alloc (s.read coordsRef)).2).read
                              ((s.alloc (s.read coordsRef)).1))
                            wdi wai))).alloc
                      ((((s.alloc (s.read coordsRef)).2).write
                          ((s.alloc (s.read coordsRef)).1)
                          (addDisplacement
                            (((s.alloc (s.read coordsRef)).2).read
                              ((s.alloc (s.read coordsRef)).1))
                            (computeWarp
                              (((s.alloc (s.read coordsRef)).2).read
                                ((s.alloc (s.read coordsRef)).1))
                              wdi wai))).read
                          ((s.alloc (s.read coordsRef)).1) *
                        (hᵀ * (inv4 a)ᵀ))).2).mem r = s.mem r := by
                intro r hr
                rw [store_alloc_mem_lt _ _ (show r <
                    (((s.alloc (s.read coordsRef)).2).write
                      ((s.alloc (s.read coordsRef)).1) _).next by
                  show r < s.next + 1
                  omega)]
                rw [store_write_mem_ne _ _ _
                  (show r ≠ (s.alloc (s.read coordsRef)).1 from by
                    show r ≠ s.next
                    omega)]
                exact store_alloc_mem_lt _ _ hr
              cases r4 with
              | error e =>
                exact step _ (some (wdt, wat)) h3next h3mem _ hrec
                  (s4, .error e) rfl
              | ok rest =>
                exact step _ (some (wdt, wat)) h3next h3mem _ hrec (s4, _) rfl

theorem interpolateOriginalSpaceHeap_preserves {n : ℕ} {VolData Warp : Type}
    (interp : VolData → Coords n → NDArray)
    (computeWarp : Coords n → Warp → Mat4 → Disp n)
    (nii_data : List VolData) (nii_affines : List Mat4)
    (coordsRef : ℕ) (ref_to_t1 : Mat4) (hmc : List Mat4)
    (warp : Option (List Warp × List Mat4))
    (callback : Option (NDArray → InterpResult)) (s : Store n) :
    ∀ r, r < s.next →
      ((interpolateOriginalSpaceHeap interp computeWarp nii_data nii_affines
          coordsRef ref_to_t1 hmc warp callback s).1).mem r = s.mem r := by
  intro r hr
  have hmapped :
      (((s.alloc (s.read coordsRef * ref_to_t1ᵀ)).2)).mem r = s.mem r :=
    store_alloc_mem_lt s _ hr
  rcases hloop : onestepLoopHeap interp computeWarp callback nii_data
      nii_affines hmc warp ((s.alloc (s.read coordsRef * ref_to_t1ᵀ)).1)
      ((s.alloc (s.read coordsRef * ref_to_t1ᵀ)).2) with ⟨s4, r4⟩
  rcases onestepLoopHeap_preserves interp computeWarp callback nii_data
      nii_affines hmc warp ((s.alloc (s.read coordsRef * ref_to_t1ᵀ)).1)
      ((s.alloc (s.read coordsRef * ref_to_t1ᵀ)).2) with ⟨-, hmem⟩
  rw [hloop] at hmem
  have hlt : r < ((s.alloc (s.read coordsRef * ref_to_t1ᵀ)).2).next := by
    show r < s.next + 1
    omega
  have hs4 : s4.mem r = s.mem r := by
    rw [hmem r hlt]
    exact hmapped
  show ((match
      onestepLoopHeap interp computeWarp callback nii_data nii_affines hmc
        warp ((s.alloc (s.read coordsRef * ref_to_t1ᵀ)).1)
        ((s.alloc (s.read coordsRef * ref_to_t1ᵀ)).2) with
    | (s, .error e) => (s, Except.error e)
    | (s, .ok interps) =>
      (s, combine_interpolation_results interps)).1).mem r = s.mem r
  rw [hloop]
  cases r4 <;> exact hs4

theorem prepareMniHeap_preserves {n : ℕ} {Warp : Type}
    (computeWarp : Coords n → Warp → Mat4 → Disp n)
    (mniAffine : Mat4) (parsed : Mat4 × Warp × Mat4)
    (s : Store n) (mniCoordsRef : ℕ) :
    ∀ r, r < s.next →
      ((prepareMniHeap computeWarp mniAffine parsed s mniCoordsRef).1).mem r
        = s.mem r := by
  intro r hr
  rcases parsed with ⟨affine, warp, warp_affine⟩
  by_cases hne : warp_affine ≠ mniAffine
  · simp only [prepareMniHeap, if_pos hne]
    exact store_alloc_mem_lt s _ hr
  · simp only [prepareMniHeap, if_neg hne]
    have h1 : r < ((s.alloc (s.read mniCoordsRef)).2).next := by
      show r < s.next + 1
      omega
    have hwne : r ≠ (s.alloc (s.read mniCoordsRef)).1 := by
      show r ≠ s.next
      omega
    have h2 :
        r < (((s.alloc (s.read mniCoordsRef)).2).write
            ((s.alloc (s.read mniCoordsRef)).1)
            (addDisplacement
              (((s.alloc (s.read mniCoordsRef)).2).read
                ((s.alloc (s.read mniCoordsRef)).1))
              (computeWarp
                (((s.alloc (s.read mniCoordsRef)).2).read
                  ((s.alloc (s.read mniCoordsRef)).1))
                warp warp_affine))).next := h1
    rw [store_alloc_mem_lt _ _ h2, store_write_mem_ne _ _ _ hwne]
    exact store_alloc_mem_lt s _ hr

theorem mapME_map {α β γ : Type} (f : β → Except PyErr γ) (g : α → β)
    (l : List α) : mapME f (l.map g) = mapME (fun a => f (g a)) l := by
  induction l with
  | nil => rfl
  | cons a t ih => simp [mapME, ih]

theorem combine_arrs (x : NDArray) (xs : List NDArray)
    (h : ∀ y ∈ xs, y.shape = x.shape) :
    combine_interpolation_results ((x :: xs).map InterpResult.arr)
      = .ok (.arr (.arr (x :: xs))) := by
  have hmap : mapME asArrE ((x :: xs).map InterpResult.arr) = .ok (x :: xs) := by
    rw [mapME_map]
    have := mapME_ok_map (fun a => asArrE (InterpResult.arr a)) id (x :: xs)
      (fun a _ => rfl)
    simpa using this
  simp only [combine_interpolation_results, List.map_cons]
  rw [show ((x :: xs).map InterpResult.arr)
      = InterpResult.arr x :: xs.map InterpResult.arr from rfl] at hmap
  rw [hmap]
  simp [npStack_ok x xs h]

theorem zip_self_map {α β : Type} (l : List α) (g : α → β) :
    l.zip (l.map g) = l.map (fun a => (a, g a)) := by
  induction l with
  | nil => rfl
  | cons a t ih => simp [ih]

theorem combine_dicts (d0 : List (String × NDArray))
    (ds : List (List (String × NDArray))) (sh : String → List ℕ)
    (hkeys : ∀ d ∈ d0 :: ds, ∀ k : String,
      k ∈ d.map Prod.fst ↔ k ∈ d0.map Prod.fst)
    (hsh : ∀ d ∈ d0 :: ds, ∀ p ∈ d, (p.2 : NDArray).shape = sh p.1) :
    combine_interpolation_results ((d0 :: ds).map InterpResult.dict)
      = .ok (.dict ((d0.map Prod.fst).map
          (fun k => (k, NDArray.arr ((d0 :: ds).map (fun d => dictGetD d k)))))) := by
  have hcols : mapME
      (fun k => mapME (fun r => dictGetE r k)
        ((d0 :: ds).map InterpResult.dict)) (d0.map Prod.fst)
      = .ok ((d0.map Prod.fst).map
          (fun k => (d0 :: ds).map (fun d => dictGetD d k))) := by
    apply mapME_ok_map
    intro k hk
    rw [mapME_map]
    apply mapME_ok_map
    intro d hd
    exact dictGetE_of_mem ((hkeys d hd k).mpr hk)
  have hstacked : mapME npStack
      ((d0.map Prod.fst).map
        (fun k => (d0 :: ds).map (fun d => dictGetD d k)))
      = .ok ((d0.map Prod.fst).map
          (fun k => NDArray.arr ((d0 :: ds).map (fun d => dictGetD d k)))) := by
    rw [mapME_map]
    apply mapME_ok_map
    intro k hk
    rw [show (d0 :: ds).map (fun d => dictGetD d k)
        = dictGetD d0 k :: ds.map (fun d => dictGetD d k) from rfl]
    apply npStack_ok
    intro y hy
    rcases List.mem_map.mp hy with ⟨d, hd, rfl⟩
    rw [dictGetD_shape ((hkeys d (List.mem_cons_of_mem d0 hd) k).mpr hk)
      (hsh d (List.mem_cons_of_mem d0 hd))]
    rw [dictGetD_shape hk (hsh d0 (List.mem_cons_self d0 ds))]
  simp only [combine_interpolation_results]
  simp only [List.map_cons] at hcols hstacked ⊢
  rw [hcols]
  simp only [ok_bind]
  rw [hstacked]
  simp only [ok_bind]
  rw [zip_self_map]

theorem dgTwo_ne_one : dgTwo ≠ (1 : Mat4) := by
  intro h
  have h0 := congrFun (congrFun h 0) 0
  simp [dgTwo, Matrix.diagonal, Matrix.one_apply] at h0

/-! ### Claim theorems -/

/-- Claim C1, counterexample: in `interpolate_original_space` the coordinate
set is mapped into reference space by `coords @ ref_to_t1.T` itself, not by
the transpose of `invert(ref_to_t1)` as the claim states.  At the concrete
transform `diag(2,1,1,1)` and the coordinate row `[1,0,0,1]`, the code maps
it to `[2,0,0,1]`, whereas the claimed formula gives `[1/2,0,0,1]`. -/
theorem C1_counterexample :
    mapToReferenceSpace rowOne dgTwo = rowTwo
    ∧ mapToReferenceSpaceClaimed rowOne dgTwo = rowHalf
    ∧ mapToReferenceSpace rowOne dgTwo ≠ mapToReferenceSpaceClaimed rowOne dgTwo := by
  refine ⟨rowOne_mul_dgTwoT, rowOne_mul_inv_dgTwoT, ?_⟩
  rw [show mapToReferenceSpace rowOne dgTwo = rowOne * dgTwoᵀ from rfl,
    rowOne_mul_dgTwoT,
    show mapToReferenceSpaceClaimed rowOne dgTwo = rowOne * (inv4 dgTwo)ᵀ from rfl,
    rowOne_mul_inv_dgTwoT]
  exact rowTwo_ne_rowHalf

/-- Claim C1, amended: one-step resampling applies the loaded registration
transform `ref_to_t1` directly — pre-applying `coords @ ref_to_t1.T` and then
running the pipeline with the identity in its place gives the same result,
so the mapped coordinates are `coords @ ref_to_t1.T`, with no inversion. -/
theorem C1_reference_mapping_direct {n : ℕ} {VolData Warp : Type}
    (interp : VolData → Coords n → NDArray)
    (computeWarp : Coords n → Warp → Mat4 → Disp n)
    (nii_data : List VolData) (nii_affines : List Mat4)
    (coords : Coords n) (ref_to_t1 : Mat4) (hmc : List Mat4)
    (warp : Option (List Warp × List Mat4))
    (callback : Option (NDArray → InterpResult)) :
    interpolate_original_space interp computeWarp nii_data nii_affines
        coords ref_to_t1 hmc warp callback
      = interpolate_original_space interp computeWarp nii_data nii_affines
        (mapToReferenceSpace coords ref_to_t1) 1 hmc warp callback := by
  simp [interpolate_original_space, mapToReferenceSpace, Matrix.transpose_one,
    Matrix.mul_one]

/-- Claim C2, counterexample: inside the one-step loop the per-frame
coordinates are mapped by `cc @ (hmc[i].T @ inv(affine).T)`, i.e. by
`hmc[i]` itself followed by the inverse voxel affine — not by
`invert(hmc[i])` as the claim states.  With `hmc[i] = diag(2,1,1,1)`, the
identity voxel affine and the row `[1,0,0,1]`, the code produces
`[2,0,0,1]` while the claimed composition gives `[1/2,0,0,1]`. -/
theorem C2_counterexample :
    frameVoxelCoords cwZero rowOne none dgTwo 1 = rowTwo
    ∧ frameVoxelMapClaimed rowOne dgTwo 1 = rowHalf
    ∧ frameVoxelCoords cwZero rowOne none dgTwo 1
        ≠ frameVoxelMapClaimed rowOne dgTwo 1 := by
  have hcode : frameVoxelCoords cwZero rowOne none dgTwo 1 = rowTwo := by
    rw [show frameVoxelCoords cwZero rowOne none dgTwo 1
        = rowOne * (dgTwoᵀ * (inv4 1)ᵀ) from rfl]
    rw [inv4_one, Matrix.transpose_one, Matrix.mul_one]
    exact rowOne_mul_dgTwoT
  have hclaim : frameVoxelMapClaimed rowOne dgTwo 1 = rowHalf := by
    rw [show frameVoxelMapClaimed rowOne dgTwo 1
        = rowOne * ((inv4 dgTwo)ᵀ * (inv4 1)ᵀ) from rfl]
    rw [inv4_one, Matrix.transpose_one, Matrix.mul_one]
    exact rowOne_mul_inv_dgTwoT
  refine ⟨hcode, hclaim, ?_⟩
  rw [hcode, hclaim]
  exact rowTwo_ne_rowHalf

/-- Claim C2, amended: for every frame `i`, the one-step loop maps the
(possibly warped) copy of the reference-space coordinates into frame `i`'s
voxel space by `hmc[i]` itself composed with the inverse of the frame's own
voxel affine (`frameVoxelCoords`), and interpolates frame `i`'s data at
exactly those voxel coordinates. -/
theorem C2_per_frame_voxel_mapping {n : ℕ} {VolData Warp : Type}
    (interp : VolData → Coords n → NDArray)
    (computeWarp : Coords n → Warp → Mat4 → Disp n)
    (callback : Option (NDArray → InterpResult)) (coords : Coords n) :
    ∀ (N : ℕ) (df : Fin N → VolData) (af hf : Fin N → Mat4)
      (wf : Option (Fin N → Warp × Mat4)),
      onestepLoop interp computeWarp callback (List.ofFn df) (List.ofFn af)
          (List.ofFn hf)
          (wf.map (fun g =>
            (List.ofFn (fun i => (g i).1), List.ofFn (fun i => (g i).2))))
          coords
        = .ok (List.ofFn (fun i =>
            applyCallback callback (interp (df i)
              (frameVoxelCoords computeWarp coords (wf.map (fun g => g i))
                (hf i) (af i))))) := by
  intro N
  induction N with
  | zero =>
    intro df af hf wf
    cases wf <;> simp [onestepLoop, List.ofFn_zero]
  | succ N ih =>
    intro df af hf wf
    cases wf with
    | none =>
      have htail := ih (fun i => df i.succ) (fun i => af i.succ)
        (fun i => hf i.succ) none
      simp only [Option.map_none'] at htail ⊢
      simp only [List.ofFn_succ, onestepLoop, ok_bind]
      rw [htail]
      rfl
    | some g =>
      have htail := ih (fun i => df i.succ) (fun i => af i.succ)
        (fun i => hf i.succ) (some (fun i => g i.succ))
      simp only [Option.map_some'] at htail ⊢
      simp only [List.ofFn_succ, onestepLoop, ok_bind]
      rw [htail]
      rfl

/-- Claim C3 (code bug): a `FunctionalRun` built from a working directory
with data volumes but no distortion-correction warp files never sets the
`warp_data` attribute, so one-step interpolation raises AttributeError
instead of succeeding without a displacement.  Evaluated at a concrete run
(one data volume, identity transforms, no warp files). -/
theorem C3_missing_warp_attribute :
    (functionalRunInit (.ok [(1 : Mat4)]) (.ok (1 : Mat4)) ["vol0000"] []
        lvU lvU (.ok ([()], 1))).bind
      (fun st => st.interpolate probeI cwZero rowOne true none)
      = .error .attributeError := rfl

/-- Claim C4: result aggregation stacks N equally shaped per-frame arrays
into one `[N, *original_shape]` array whose i-th slice is the i-th input;
region-keyed mappings with identical key sets become a mapping from each key
to the `[N, *shape]` stack of that key's per-frame arrays; and a list of
results that are neither arrays nor mappings raises a fatal ValueError. -/
theorem C4_result_aggregation :
    (∀ (x : NDArray) (xs : List NDArray),
      (∀ y ∈ xs, y.shape = x.shape) →
      combine_interpolation_results ((x :: xs).map InterpResult.arr)
          = .ok (.arr (.arr (x :: xs)))
        ∧ (NDArray.arr (x :: xs)).shape = (x :: xs).length :: x.shape)
    ∧ (∀ (d0 : List (String × NDArray)) (ds : List (List (String × NDArray)))
        (sh : String → List ℕ),
      (∀ d ∈ d0 :: ds, ∀ k : String,
        k ∈ d.map Prod.fst ↔ k ∈ d0.map Prod.fst) →
      (∀ d ∈ d0 :: ds, ∀ p ∈ d, (p.2 : NDArray).shape = sh p.1) →
      combine_interpolation_results ((d0 :: ds).map InterpResult.dict)
        = .ok (.dict ((d0.map Prod.fst).map
            (fun k => (k, NDArray.arr ((d0 :: ds).map (fun d => dictGetD d k)))))))
    ∧ (∀ (r : InterpResult) (rs : List InterpResult),
      (∀ t ∈ r :: rs, t = InterpResult.other) →
      combine_interpolation_results (r :: rs) = .error .valueError) := by
  refine ⟨fun x xs h => ⟨combine_arrs x xs h, rfl⟩,
    fun d0 ds sh hk hs => combine_dicts d0 ds sh hk hs,
    fun r rs h => ?_⟩
  have hr := h r (List.mem_cons_self r rs)
  subst hr
  rfl

/-- Witness for C4 at concrete inputs: two scalar frames stack to a `[2]`
array; two dicts over keys `{A, B}` (in different orders) stack per key; a
frame list holding a non-array, non-dict object raises ValueError. -/
theorem C4_witness :
    combine_interpolation_results
        [InterpResult.arr (.scalar 1), InterpResult.arr (.scalar 2)]
      = .ok (.arr (.arr [.scalar 1, .scalar 2]))
    ∧ (NDArray.arr [NDArray.scalar 1, NDArray.scalar 2]).shape = [2]
    ∧ combine_interpolation_results
        [InterpResult.dict [("A", NDArray.scalar 1), ("B", NDArray.scalar 2)],
          InterpResult.dict [("B", NDArray.scalar 3), ("A", NDArray.scalar 4)]]
      = .ok (.dict [("A", NDArray.arr [.scalar 1, .scalar 4]),
          ("B", NDArray.arr [.scalar 2, .scalar 3])])
    ∧ combine_interpolation_results [InterpResult.other]
      = .error .valueError := by
  refine ⟨?_, ?_, ?_, ?_⟩
  · exact (C4_result_aggregation.1 (.scalar 1) [.scalar 2]
      (by intro y hy; fin_cases hy; rfl)).1
  · exact (C4_result_aggregation.1 (.scalar 1) [.scalar 2]
      (by intro y hy; fin_cases hy; rfl)).2
  · exact C4_result_aggregation.2.1
      [("A", NDArray.scalar 1), ("B", NDArray.scalar 2)]
      [[("B", NDArray.scalar 3), ("A", NDArray.scalar 4)]]
      (fun _ => [])
      (by intro d hd k; fin_cases hd <;> simp [or_comm])
      (by intro d hd p hp; fin_cases hd <;> fin_cases hp <;> rfl)
  · exact C4_result_aggregation.2.2 InterpResult.other []
      (by intro t ht; fin_cases ht; rfl)

/-- Claim C5, counterexample: the claim says any mismatch of per-frame key
sets is a fatal error with no key silently dropped, but when a later frame
has a strict superset of the first frame's keys the aggregation succeeds and
drops the extra key: frames `{A}` and `{A, B}` aggregate to a mapping with
key set `{A}` only. -/
theorem C5_counterexample :
    combine_interpolation_results
        [InterpResult.dict [("A", NDArray.scalar 1)],
          InterpResult.dict [("A", NDArray.scalar 2), ("B", NDArray.scalar 3)]]
      = .ok (.dict [("A", NDArray.arr [.scalar 1, .scalar 2])])
    ∧ ("B" : String) ∈
        ([("A", NDArray.scalar 2), ("B", NDArray.scalar 3)]).map Prod.fst
    ∧ ("B" : String) ∉ ([("A", NDArray.scalar 1)]).map Prod.fst := by
  refine ⟨rfl, by simp, by simp⟩

/-- Claim C5, amended: aggregation raises a fatal KeyError exactly when some
frame is missing a key of the FIRST frame's key set (which covers the spec's
`{A,B}` vs `{A,C}` example); the output is always keyed by the first frame's
keys, so keys appearing only in later frames are dropped without error. -/
theorem C5_missing_key_behavior :
    (∀ (d0 : List (String × NDArray)) (ds : List (List (String × NDArray)))
        (k : String) (dm : List (String × NDArray)),
      k ∈ d0.map Prod.fst → dm ∈ d0 :: ds →
      dm.find? (fun q => q.1 == k) = none →
      combine_interpolation_results ((d0 :: ds).map InterpResult.dict)
        = .error .keyError)
    ∧ (∀ (d0 : List (String × NDArray)) (ds : List (List (String × NDArray)))
        (out : List (String × NDArray)),
      combine_interpolation_results ((d0 :: ds).map InterpResult.dict)
        = .ok (.dict out) →
      out.map Prod.fst = d0.map Prod.fst) := by
  constructor
  · intro d0 ds k dm hk hdm hmiss
    have hallinner : ∀ (k2 : String), ∀ y ∈ (d0 :: ds).map InterpResult.dict,
        (∃ z, dictGetE y k2 = .ok z) ∨ dictGetE y k2 = .error .keyError := by
      intro k2 y hy
      rcases List.mem_map.mp hy with ⟨d, hd, rfl⟩
      exact dictGetE_okOrKey d k2
    have hcol : mapME (fun r => dictGetE r k)
        ((d0 :: ds).map InterpResult.dict) = .error .keyError := by
      apply mapME_keyError_of_mem _ _ (InterpResult.dict dm) (hallinner k)
        (List.mem_map_of_mem _ hdm)
      simp [dictGetE, hmiss]
    have houter : ∀ k2 ∈ d0.map Prod.fst,
        (∃ ys, mapME (fun r => dictGetE r k2)
            ((d0 :: ds).map InterpResult.dict) = .ok ys)
          ∨ mapME (fun r => dictGetE r k2)
            ((d0 :: ds).map InterpResult.dict) = .error .keyError :=
      fun k2 _ => mapME_okOrKey _ _ (hallinner k2)
    have hcols : mapME
        (fun k2 => mapME (fun r => dictGetE r k2)
          ((d0 :: ds).map InterpResult.dict)) (d0.map Prod.fst)
        = .error .keyError :=
      mapME_keyError_of_mem _ _ k houter hk hcol
    simp only [combine_interpolation_results]
    simp only [List.map_cons] at hcols ⊢
    rw [hcols]
    rfl
  · intro d0 ds out h
    simp only [combine_interpolation_results, List.map_cons] at h
    cases hcols : mapME
        (fun k => mapME (fun r => dictGetE r k)
          (InterpResult.dict d0 :: List.map InterpResult.dict ds))
        (List.map Prod.fst d0) with
    | error e => rw [hcols] at h; exact absurd h (by simp)
    | ok cs =>
      rw [hcols] at h
      simp only [ok_bind] at h
      cases hst : mapME npStack cs with
      | error e => rw [hst] at h; exact absurd h (by simp)
      | ok st =>
        rw [hst] at h
        simp only [ok_bind] at h
        have hout : (List.map Prod.fst d0).zip st = out := by
          simpa using h
        rw [← hout]
        have l1 : cs.length = (List.map Prod.fst d0).length := mapME_length hcols
        have l2 : st.length = cs.length := mapME_length hst
        exact List.map_fst_zip _ _ (by omega)

/-- Witness for C5 at concrete inputs: the spec's own example (`{A,B}` vs
`{A,C}`: frame two is missing key `B`) raises KeyError, and an aggregated
output is keyed exactly by the first frame's keys. -/
theorem C5_witness :
    combine_interpolation_results
        [InterpResult.dict [("A", NDArray.scalar 1), ("B", NDArray.scalar 2)],
          InterpResult.dict [("A", NDArray.scalar 3), ("C", NDArray.scalar 4)]]
      = .error .keyError
    ∧ ([("A", NDArray.arr [NDArray.scalar 1])]).map Prod.fst
        = ([("A", NDArray.scalar 1)]).map Prod.fst := by
  constructor
  · exact C5_missing_key_behavior.1
      [("A", NDArray.scalar 1), ("B", NDArray.scalar 2)]
      [[("A", NDArray.scalar 3), ("C", NDArray.scalar 4)]]
      "B" [("A", NDArray.scalar 3), ("C", NDArray.scalar 4)]
      (by simp) (by simp) rfl
  · exact C5_missing_key_behavior.2 [("A", NDArray.scalar 1)] []
      [("A", NDArray.arr [NDArray.scalar 1])] rfl

/-- Claim C6: during `FunctionalRun` construction, a non-empty warp-file set
whose count differs from the data-file count raises AssertionError before
any volume is loaded (the conclusion holds for every volume/warp/T1 loader,
including failing ones, so no load can have been consulted); with an empty
warp-file set no count check is applied and construction succeeds for any
data-file count. -/
theorem C6_warp_count_assertion :
    (∀ (VolData Warp : Type) (hmc : List Mat4) (ref : Mat4)
        (nii_fns warp_fns : List String)
        (loadVol : String → Except PyErr (VolData × Mat4))
        (loadWarp : String → Except PyErr (Warp × Mat4))
        (loadT1 : Except PyErr (List VolData × Mat4)),
      warp_fns ≠ [] → nii_fns.length ≠ warp_fns.length →
      functionalRunInit (.ok hmc) (.ok ref) nii_fns warp_fns loadVol loadWarp
          loadT1 = .error .assertionError)
    ∧ (∀ (VolData Warp : Type) (hmc : List Mat4) (ref : Mat4)
        (nii_fns : List String) (loadVol : String → VolData × Mat4)
        (loadWarp : String → Except PyErr (Warp × Mat4))
        (t1 : List VolData × Mat4),
      ∃ st, functionalRunInit (.ok hmc) (.ok ref) nii_fns []
          (fun fn => .ok (loadVol fn)) loadWarp (.ok t1) = .ok st) := by
  constructor
  · intro VolData Warp hmc ref nii_fns warp_fns loadVol loadWarp loadT1 h1 h2
    have h1' : warp_fns.length ≠ 0 := by
      intro hlen
      exact h1 (List.length_eq_zero.mp hlen)
    simp [functionalRunInit, h1', h2]
  · intro VolData Warp hmc ref nii_fns loadVol loadWarp t1
    have hm := mapME_ok_map
      (fun fn => (.ok (loadVol fn) : Except PyErr (VolData × Mat4)))
      loadVol nii_fns (fun x _ => rfl)
    refine ⟨⟨ref, hmc, nii_fns.map (Prod.fst ∘ loadVol),
      nii_fns.map (Prod.snd ∘ loadVol), none, t1.1, t1.2⟩, ?_⟩
    simp [functionalRunInit, hm]

/-- Witness for C6 at concrete inputs: two data volumes against one warp
file raises AssertionError; two data volumes and no warp files construct
successfully. -/
theorem C6_witness :
    functionalRunInit (.ok [(1 : Mat4)]) (.ok (1 : Mat4)) ["a", "b"] ["w"]
        lvU lvU (.ok ([()], 1)) = .error .assertionError
    ∧ ∃ st, functionalRunInit (.ok [(1 : Mat4)]) (.ok (1 : Mat4)) ["a", "b"]
        [] (fun _ => .ok ((), (1 : Mat4))) lvU (.ok ([()], 1)) = .ok st := by
  constructor
  · exact C6_warp_count_assertion.1 Unit Unit [1] 1 ["a", "b"] ["w"] lvU lvU
      (.ok ([()], 1)) (by simp) (by simp)
  · exact C6_warp_count_assertion.2 Unit Unit [1] 1 ["a", "b"]
      (fun _ => ((), 1)) lvU ([()], 1)

/-- Claim C7: two-step resampling maps the target coordinates once into the
shared grid's voxel space by the inverse of its single affine
(`coords @ inv(nii_t1_affine).T`), and interpolates every timepoint's
pre-resampled volume at that same mapped coordinate set — the per-frame
query is the same expression for every frame, with no per-frame transform
and no per-frame warp. -/
theorem C7_two_step_shared_mapping {n : ℕ} {VolData : Type}
    (interp : VolData → Coords n → NDArray)
    (d0 : VolData) (rest : List VolData) (aff : Mat4) (coords : Coords n)
    (hsh : ∀ d ∈ d0 :: rest,
      (interp d (coords * (inv4 aff)ᵀ)).shape
        = (interp d0 (coords * (inv4 aff)ᵀ)).shape) :
    interpolate_t1_space interp (d0 :: rest) aff coords none
      = .ok (.arr (.arr
          ((d0 :: rest).map (fun d => interp d (coords * (inv4 aff)ᵀ))))) := by
  have hcc : coords * inv4 (affᵀ) = coords * (inv4 aff)ᵀ := by
    rw [inv4_transpose]
  have hlist : (d0 :: rest).map
      (fun d => applyCallback none (interp d (coords * (inv4 aff)ᵀ)))
      = ((d0 :: rest).map (fun d => interp d (coords * (inv4 aff)ᵀ))).map
          InterpResult.arr := by
    rw [List.map_map]
    rfl
  show combine_interpolation_results
      ((d0 :: rest).map
        (fun d => applyCallback none (interp d (coords * inv4 (affᵀ))))) = _
  rw [hcc, hlist, List.map_cons]
  rw [show (interp d0 (coords * (inv4 aff)ᵀ)
        :: rest.map (fun d => interp d (coords * (inv4 aff)ᵀ))).map
        InterpResult.arr
      = ((interp d0 (coords * (inv4 aff)ᵀ))
          :: (rest.map (fun d => interp d (coords * (inv4 aff)ᵀ)))).map
          InterpResult.arr from rfl]
  rw [combine_arrs]
  intro y hy
  rcases List.mem_map.mp hy with ⟨d, hd, rfl⟩
  exact hsh d (List.mem_cons_of_mem d0 hd)

/-- Witness for C7 at concrete inputs: two pre-resampled frames interpolated
with a constant stand-in interpolator produce the stack of the two per-frame
results. -/
theorem C7_witness :
    interpolate_t1_space probeI [(), ()] (1 : Mat4) rowOne none
      = .ok (.arr (.arr [.scalar 0, .scalar 0])) :=
  C7_two_step_shared_mapping probeI () [()] 1 rowOne (fun _ _ => rfl)

/-- Claim C8: warp adjustments act on copies.  Over the array store, a
one-step interpolation call never changes the caller's coordinate cell, and
neither does template-coordinate construction (`prepare_mni`); the sampled
displacement is added only to the first three columns of the copy
(`cc[..., :3] += diff`), the fourth column is written back unchanged and in
particular keeps the value 1 of a homogeneous coordinate row. -/
theorem C8_warp_adjusts_copies :
    (∀ (n : ℕ) (VolData Warp : Type) (interp : VolData → Coords n → NDArray)
        (computeWarp : Coords n → Warp → Mat4 → Disp n) (nd : List VolData)
        (na : List Mat4) (coordsRef : ℕ) (ref_to_t1 : Mat4) (hmc : List Mat4)
        (warp : Option (List Warp × List Mat4))
        (callback : Option (NDArray → InterpResult)) (s : Store n),
      coordsRef < s.next →
      ((interpolateOriginalSpaceHeap interp computeWarp nd na coordsRef
          ref_to_t1 hmc warp callback s).1).read coordsRef
        = s.read coordsRef)
    ∧ (∀ (n : ℕ) (Warp : Type) (computeWarp : Coords n → Warp → Mat4 → Disp n)
        (mniAffine : Mat4) (parsed : Mat4 × Warp × Mat4) (s : Store n)
        (mniCoordsRef : ℕ),
      mniCoordsRef < s.next →
      ((prepareMniHeap computeWarp mniAffine parsed s mniCoordsRef).1).read
          mniCoordsRef
        = s.read mniCoordsRef)
    ∧ (∀ (n : ℕ) (cc : Coords n) (diff : Disp n) (i : Fin n),
      addDisplacement cc diff i 3 = cc i 3
      ∧ (∀ (j : Fin 4) (hj : (j : ℕ) < 3),
          addDisplacement cc diff i j = cc i j + diff i ⟨(j : ℕ), hj⟩)
      ∧ (cc i 3 = 1 → addDisplacement cc diff i 3 = 1)) := by
  refine ⟨?_, ?_, ?_⟩
  · intro n VolData Warp interp computeWarp nd na coordsRef ref_to_t1 hmc
      warp callback s h
    exact interpolateOriginalSpaceHeap_preserves interp computeWarp nd na
      coordsRef ref_to_t1 hmc warp callback s coordsRef h
  · intro n Warp computeWarp mniAffine parsed s mniCoordsRef h
    exact prepareMniHeap_preserves computeWarp mniAffine parsed s
      mniCoordsRef mniCoordsRef h
  · intro n cc diff i
    refine ⟨addDisplacement_col3 cc diff i, addDisplacement_colLt cc diff i,
      fun h1 => ?_⟩
    rw [addDisplacement_col3 cc diff i]
    exact h1

/-- Witness for C8 at concrete inputs: running both heap embeddings on a
one-cell store leaves the caller's cell unchanged, and the displacement add
on `[1,0,0,1]` keeps the fourth column at 1 while changing only the first
three columns. -/
theorem C8_witness :
    ((interpolateOriginalSpaceHeap probeI cwZero [()] [(1 : Mat4)] 0
        (1 : Mat4) [(1 : Mat4)] none none storeOne).1).read 0
      = storeOne.read 0
    ∧ ((prepareMniHeap cwZero (1 : Mat4) ((1 : Mat4), (), (1 : Mat4))
        storeOne 0).1).read 0 = storeOne.read 0
    ∧ addDisplacement rowOne 0 0 3 = rowOne 0 3
    ∧ addDisplacement rowOne 0 0 0 = rowOne 0 0 + (0 : Disp 1) 0 0
    ∧ (rowOne 0 3 = 1 → addDisplacement rowOne 0 0 3 = 1) := by
  refine ⟨?_, ?_, ?_, ?_, ?_⟩
  · exact C8_warp_adjusts_copies.1 1 Unit Unit probeI cwZero [()] [1] 0 1 [1]
      none none storeOne Nat.one_pos
  · exact C8_warp_adjusts_copies.2.1 1 Unit cwZero 1 (1, (), 1) storeOne 0
      Nat.one_pos
  · exact (C8_warp_adjusts_copies.2.2 1 rowOne 0 0).1
  · exact (C8_warp_adjusts_copies.2.2 1 rowOne 0 0).2.1 0 (by decide)
  · exact (C8_warp_adjusts_copies.2.2 1 rowOne 0 0).2.2

/-- Claim C9: in `Subject.prepare_mni`, if the displacement field's affine
from the combined nonlinear-registration file differs in any entry from the
reference grid affine, an AssertionError is raised; the conclusion holds for
every `compute_warp` capability, so no displacement can have been applied. -/
theorem C9_displacement_affine_assertion {n : ℕ} {Warp : Type}
    (computeWarp : Coords n → Warp → Mat4 → Disp n)
    (mniCoords : Coords n) (mniAffine affine warp_affine : Mat4)
    (warp : Warp) (h : warp_affine ≠ mniAffine) :
    prepare_mni computeWarp mniCoords mniAffine (affine, warp, warp_affine)
      = .error .assertionError := by
  simp [prepare_mni, h]

/-- Witness for C9 at concrete inputs: a displacement-field affine
`diag(2,1,1,1)` differing from the identity reference affine raises
AssertionError. -/
theorem C9_witness :
    prepare_mni cwZero rowOne (1 : Mat4) ((1 : Mat4), (), dgTwo)
      = .error .assertionError :=
  C9_displacement_affine_assertion cwZero rowOne 1 1 dgTwo () dgTwo_ne_one

/-- Claim C10: the template-space block's skip is all-or-nothing — it skips
(performing zero interpolation evaluations and writing nothing) exactly when
every per-region output file already exists; if at least one is missing the
interpolation is evaluated once and a file is written for every region key,
including regions whose file already existed. -/
theorem C10_mni_skip_all_or_nothing :
    (∀ (exists0 : String → Bool) (outDir space tag sid label : String)
        (rois : List String) (runInterp : Except PyErr Combined),
      (rois.map (roiOutFn outDir space tag sid label)).all exists0 = true →
      mniBlock exists0 outDir space tag sid label rois runInterp
        = (0, .ok []))
    ∧ (∀ (exists0 : String → Bool) (outDir space tag sid label : String)
        (rois : List String) (items : List (String × NDArray)),
      (rois.map (roiOutFn outDir space tag sid label)).all exists0 = false →
      items.map Prod.fst = rois →
      mniBlock exists0 outDir space tag sid label rois (.ok (.dict items))
          = (1, .ok (items.map
              (fun p => (roiOutFn outDir space tag sid label p.1, p.2))))
        ∧ (items.map
              (fun p => (roiOutFn outDir space tag sid label p.1, p.2))).map
              Prod.fst
            = rois.map (roiOutFn outDir space tag sid label)) := by
  constructor
  · intro exists0 outDir space tag sid label rois runInterp h
    simp [mniBlock, h]
  · intro exists0 outDir space tag sid label rois items h hkeys
    constructor
    · simp [mniBlock, h]
    · rw [List.map_map]
      have hcomp : (Prod.fst ∘ fun p : String × NDArray =>
          (roiOutFn outDir space tag sid label p.1, p.2))
          = (roiOutFn outDir space tag sid label) ∘ Prod.fst := rfl
      rw [hcomp, ← List.map_map, hkeys]

/-- Witness for C10 at concrete inputs: with the single region file present
the block skips (zero interpolation evaluations, no writes); with it absent
the block interpolates once and writes that region's path. -/
theorem C10_witness :
    mniBlock (fun _ => true) "out" "mni-2mm" "t" "s1" "l1" ["cortex"]
        (.ok (.dict [])) = (0, .ok [])
    ∧ mniBlock (fun _ => false) "out" "mni-2mm" "t" "s1" "l1" ["cortex"]
        (.ok (.dict [("cortex", NDArray.scalar 1)]))
        = (1, .ok [(roiOutFn "out" "mni-2mm" "t" "s1" "l1" "cortex",
            NDArray.scalar 1)])
    ∧ ([(roiOutFn "out" "mni-2mm" "t" "s1" "l1" "cortex",
          NDArray.scalar 1)]).map Prod.fst
        = ["cortex"].map (roiOutFn "out" "mni-2mm" "t" "s1" "l1") := by
  refine ⟨?_, ?_, ?_⟩
  · exact C10_mni_skip_all_or_nothing.1 (fun _ => true) "out" "mni-2mm" "t"
      "s1" "l1" ["cortex"] (.ok (.dict [])) rfl
  · exact (C10_mni_skip_all_or_nothing.2 (fun _ => false) "out" "mni-2mm"
      "t" "s1" "l1" ["cortex"] [("cortex", NDArray.scalar 1)] rfl rfl).1
  · exact (C10_mni_skip_all_or_nothing.2 (fun _ => false) "out" "mni-2mm"
      "t" "s1" "l1" ["cortex"] [("cortex", NDArray.scalar 1)] rfl rfl).2

end ResampleWorkflow
